import Mathlib

/-!
Verification of the event-sourced membership accumulator
(`src/examples/zkapps/voting/membership.ts`).

The contract `Membership_` keeps two scalar state values, `committedMembers`
(a Merkle root) and `accumulatedMembers` (the action-log marker), and uses a
reducer over dispatched `Member` actions.  The methods embedded here are
`addEntry`, `isMember` and `publish`, together with the module-level mutable
`participantPreconditions` variable and the `Membership` factory that
overwrites it.

Parts of the repository that the contract uses but that are not present under
`src/` (the `Member` struct, `ParticipantPreconditions`, Poseidon hashing, the
Merkle witness, and the `Experimental.Reducer` fold engine with its
content-derived actions hash) are modelled from the spec; each such definition
carries a doc comment saying so.
-/

/-- Modelled from the spec: identities are opaque values (`PublicKeyLike`);
we model them as naturals.  The source is the snarkyjs `PublicKey` type,
which is not under `src/`. -/
abbrev PublicKey := Nat

/-- Modelled from the spec: the distinguished sentinel identity
(`PublicKey.empty()` in the source), the additive identity of the
identity space. -/
def PublicKey.empty : PublicKey := 0

/-- Modelled from the spec: a Merkle sibling-path witness.  Each step holds
whether the sibling is on the left, and the sibling hash.  The source type
(`MyMerkleWitness` in `member.ts`) is not under `src/`. -/
structure MerkleWitness where
  path : List (Bool × Nat)
deriving DecidableEq

/-- Modelled from the spec: a `MembershipEntry` is
`{ identity, attribute, witness }`.  The source `Member` struct
(`member.ts`, not under `src/`) carries `publicKey`, `balance` and
`witness`; we keep the source field names. -/
structure Member where
  publicKey : PublicKey
  balance : Nat
  witness : MerkleWitness
deriving DecidableEq

/-- Modelled from the spec: the distinguished `EMPTY` sentinel
(`Member.empty()` in the source) with the sentinel identity. -/
def Member.empty : Member := { publicKey := PublicKey.empty, balance := 0, witness := ⟨[]⟩ }

/-- Modelled from the spec: serialization of an entry to field elements
(`member.toFields()` in the source, not under `src/`). -/
def Member.toFields (m : Member) : List Nat :=
  [m.publicKey, m.balance]

/-- Modelled from the spec: a two-to-one compression function standing in for
the Poseidon permutation (opaque primitive, out of scope per the spec).
Any deterministic pure function will do; we use an injective pairing. -/
def hashPair (l r : Nat) : Nat :=
  (l + r) * (l + r + 1) / 2 + r + 1

/-- Modelled from the spec: `Poseidon.hash` over a list of field elements
(opaque primitive, out of scope per the spec). -/
def hashFields (xs : List Nat) : Nat :=
  xs.foldl hashPair 0

/-- Modelled from the spec: the leaf hash of an entry,
`Poseidon.hash(member.toFields())` in the source. -/
def hashMember (m : Member) : Nat :=
  hashFields m.toFields

/-- Modelled from the spec: `recomputeRoot(leafValue, witness)` — walk the
sibling path from the leaf up to the root (`witness.calculateRoot` in the
source, not under `src/`).  Deterministic and pure. -/
def calculateRoot (leaf : Nat) (w : MerkleWitness) : Nat :=
  w.path.foldl (fun acc st => if st.1 then hashPair st.2 acc else hashPair acc st.2) leaf

/-- Modelled from the spec: numeric eligibility bounds
(`ParticipantPreconditions` in `preconditions.ts`, not under `src/`). -/
structure ParticipantPreconditions where
  minMina : Nat
  maxMina : Nat
deriving DecidableEq

/-- Modelled from the spec: the default bounds; per the source comment the
voter maximum is `UInt64.MAXINT()`. -/
def ParticipantPreconditions.default : ParticipantPreconditions :=
  { minMina := 0, maxMina := 18446744073709551615 }

/-- Branchless select, the embedding of circuit-level `Circuit.if`: a total
function of the condition and of BOTH already-computed branch values
(spec section 9). -/
def circuitIf {T : Type} (b : Bool) (x y : T) : T :=
  if b then x else y

/-- Modelled from the spec: the content-derived action marker advances
deterministically with each appended action (spec section 3, `ActionMarker`).
The source mechanism (the sequence-events `actionsHash`) is reducer library
code not under `src/`. -/
def pushAction (marker : Nat) (m : Member) : Nat :=
  hashPair marker (hashMember m)

/-- The checkpoint returned by the fold engine: an accumulator value paired
with the actions-hash marker.  Field names follow the source
(`{ state, actionsHash }`). -/
structure FoldState (T : Type) where
  state : T
  actionsHash : Nat
deriving DecidableEq

/-- Modelled from the spec: the Fold Engine (`Experimental.Reducer.reduce`,
library code not under `src/`).  Applies `step` left-to-right over the
pending actions in append order, threading the marker (spec section 4.2).
The source call sites pass a stubbed empty pending list
(`[], // TODO: sequence events`); per spec section 9 the Action Log contract
is modelled from the spec, so the pending actions are a parameter here. -/
def reduce {T : Type} (pending : List Member) (step : T → Member → T)
    (init : FoldState T) : FoldState T :=
  pending.foldl (fun fs a => ⟨step fs.state a, pushAction fs.actionsHash a⟩) init

/-- Contract state: the two on-chain scalars of `Membership_`
(`committedMembers`, `accumulatedMembers`) together with the pending
(appended, uncommitted) actions of the log.  The log itself is modelled
from the spec (spec sections 2 and 3) since the sequence-events mechanism
is stubbed in the source. -/
structure ContractState where
  committedMembers : Nat
  accumulatedMembers : Nat
  pendingActions : List Member
deriving DecidableEq

/-- The boolean computed at `membership.ts` lines 81-83:
`member.balance.gte(pre.minMina).and(member.balance.lte(pre.maxMina))`.
NOTE: the source accesses `.assertTrue` on this value WITHOUT invoking it
(no parentheses, line 83), so the assertion never fires; the expression is
computed and discarded. -/
def eligibilityExpr (pre : ParticipantPreconditions) (m : Member) : Bool :=
  (decide (pre.minMina ≤ m.balance)) && (decide (m.balance ≤ pre.maxMina))

/-- The existence-scan step of `addEntry` (`membership.ts` line 93):
`(state, action) => action.equals(member).or(state)`. -/
def existsStep (member : Member) (st : Bool) (a : Member) : Bool :=
  (decide (a = member)) || st

/-- `Membership_.addEntry` (`membership.ts` lines 74-111).  Takes the
module-level mutable `participantPreconditions` as `pre` (the source reads
it ambiently at lines 82-83).  Computes the eligibility boolean but, exactly
as the source does, never asserts it (line 83 accesses `.assertTrue` without
calling it).  Scans the pending actions for the member, dispatches
`Circuit.if(exists, Member.empty(), member)`, and returns `exists`. -/
def addEntry (pre : ParticipantPreconditions) (s : ContractState) (member : Member) :
    Bool × ContractState :=
  let _elig := eligibilityExpr pre member
  let ex := (reduce s.pendingActions (existsStep member)
      ⟨false, s.accumulatedMembers⟩).state
  let toEmit := circuitIf ex Member.empty member
  (ex, { s with pendingActions := s.pendingActions ++ [toEmit] })

/-- `Membership_.isMember` (`membership.ts` lines 118-128):
`member.witness.calculateRoot(Poseidon.hash(member.toFields())).equals(committedMembers)`. -/
def isMember (s : ContractState) (member : Member) : Bool :=
  decide (calculateRoot (hashMember member) member.witness = s.committedMembers)

/-- The Merkle-fold step of `publish` (`membership.ts` lines 146-161):
`isRealMember = Circuit.if(action.publicKey.equals(PublicKey.empty()), false, true)`
then
`Circuit.if(isRealMember, action.witness.calculateRoot(hash(action)), state)`. -/
def publishStep (st : Nat) (a : Member) : Nat :=
  let isRealMember := circuitIf (decide (a.publicKey = PublicKey.empty)) false true
  circuitIf isRealMember (calculateRoot (hashMember a) a.witness) st

/-- `Membership_.publish` (`membership.ts` lines 133-168): folds the pending
actions with `publishStep` starting from the committed `(root, marker)`
checkpoint and writes back both resulting scalars together.  The marker
having advanced past all folded actions, the pending partition of the log
is empty afterwards (spec sections 3 and 4.4, modelled from the spec since
the sequence-events mechanism is stubbed in the source). -/
def publish (s : ContractState) : ContractState :=
  let r := reduce s.pendingActions publishStep
      ⟨s.committedMembers, s.accumulatedMembers⟩
  { committedMembers := r.state, accumulatedMembers := r.actionsHash,
    pendingActions := [] }

/-- Parameters of the `Membership` factory (`membership.ts` lines 20-24). -/
structure MembershipParams where
  participantPreconditions : ParticipantPreconditions
  contractAddress : PublicKey
  doProofs : Bool
deriving DecidableEq

/-- The `Membership` factory (`membership.ts` lines 30-41): its first action
(line 33) overwrites the module-level mutable `participantPreconditions`
variable (declared at line 18) with the one from `params`.  We model the
module state as the value of that variable; the factory returns its new
value, which every subsequent `addEntry` of EVERY instance then reads. -/
def MembershipFactory (_moduleConfig : ParticipantPreconditions) (params : MembershipParams) :
    ParticipantPreconditions :=
  params.participantPreconditions

/- Concrete values used by closed theorems. -/

/-- Narrow bounds used for concrete evaluations. -/
def preNarrow : ParticipantPreconditions := { minMina := 0, maxMina := 10 }

/-- A member whose balance 11 lies outside `preNarrow` = [0, 10]. -/
def mBad : Member := { publicKey := 4, balance := 11, witness := ⟨[]⟩ }

/-- A member with balance 5, inside `preNarrow`. -/
def mA : Member := { publicKey := 3, balance := 5, witness := ⟨[]⟩ }

/-- Same identity and witness as `mA`, different balance. -/
def mB : Member := { publicKey := 3, balance := 7, witness := ⟨[]⟩ }

/-- A contract state with no pending actions. -/
def sEmpty : ContractState :=
  { committedMembers := 0, accumulatedMembers := 0, pendingActions := [] }

/-- A contract state whose pending actions already contain `mA`. -/
def sPend : ContractState :=
  { committedMembers := 0, accumulatedMembers := 0, pendingActions := [mA] }

/-- Factory parameters carrying the bounds [0, 10]. -/
def params1 : MembershipParams :=
  { participantPreconditions := { minMina := 0, maxMina := 10 },
    contractAddress := 1, doProofs := false }

/-- Factory parameters carrying the bounds [6, 10]. -/
def params2 : MembershipParams :=
  { participantPreconditions := { minMina := 6, maxMina := 10 },
    contractAddress := 2, doProofs := false }

/- Helper lemmas. -/

theorem reduce_nil {T : Type} (step : T → Member → T) (init : FoldState T) :
    reduce [] step init = init := rfl

theorem reduce_cons {T : Type} (a : Member) (t : List Member)
    (step : T → Member → T) (init : FoldState T) :
    reduce (a :: t) step init
      = reduce t step ⟨step init.state a, pushAction init.actionsHash a⟩ := rfl

/-- The existence scan computes the disjunction of the initial accumulator
with membership of the candidate in the scanned list. -/
theorem existsScan_state (m : Member) (l : List Member) (b : Bool) (h : Nat) :
    (reduce l (existsStep m) ⟨b, h⟩).state = (b || decide (m ∈ l)) := by
  induction l generalizing b h with
  | nil => simp [reduce]
  | cons a t ih =>
    rw [reduce_cons]
    rw [ih]
    by_cases hma : m = a
    · subst hma
      simp [existsStep]
    · have hma2 : ¬ a = m := fun hh => hma hh.symm
      simp [existsStep, List.mem_cons, hma, hma2, Bool.or_comm, Bool.or_assoc]

/-- C4: the existence-scan fold with step `found OR (entry == candidate)`,
started from `false`, yields true iff the candidate occurs in the scanned
pending-actions sequence. -/
theorem C4_exists_scan (m : Member) (l : List Member) (h0 : Nat) :
    (reduce l (existsStep m) ⟨false, h0⟩).state = true ↔ m ∈ l := by
  rw [existsScan_state]
  simp

/-- C1 (code_bug): the eligibility bounds are NOT enforced.  At
`membership.ts` line 83 the source accesses `.assertTrue` without invoking
it, so `addEntry` raises nothing: for the concrete candidate `mBad` with
balance 11 under bounds [0, 10] the range boolean is false, yet the call
completes and still appends an action to the log, contradicting the claimed
`EligibilityError` behaviour (and the comment at lines 76-80 stating the
intent to restrict admission). -/
theorem C1_eligibility_not_enforced :
    eligibilityExpr preNarrow mBad = false
    ∧ addEntry preNarrow sEmpty mBad
        = (false, { sEmpty with pendingActions := [mBad] }) := by
  constructor
  · decide
  · decide

/-- C2: `addEntry` returns whether the candidate already existed among the
pending actions: false the first time a candidate is admitted, true when the
same candidate is admitted again before a commit. -/
theorem C2_dedup_return (pre : ParticipantPreconditions) (s : ContractState)
    (m : Member) (h : m ∉ s.pendingActions) :
    (addEntry pre s m).1 = false
    ∧ (addEntry pre (addEntry pre s m).2 m).1 = true := by
  have h1 : (addEntry pre s m).1 = false := by
    simp [addEntry, existsScan_state, h]
  refine ⟨h1, ?_⟩
  simp [addEntry, existsScan_state, circuitIf, h, List.mem_append]

/-- Witness for C2 at concrete inputs: `mA` is not pending in `sEmpty`; the
first admission returns false and the second returns true. -/
theorem C2_dedup_return_witness :
    mA ∉ sEmpty.pendingActions
    ∧ ((addEntry preNarrow sEmpty mA).1 = false
       ∧ (addEntry preNarrow (addEntry preNarrow sEmpty mA).2 mA).1 = true) :=
  ⟨by decide, C2_dedup_return preNarrow sEmpty mA (by decide)⟩

/-- C3: every `addEntry` invocation dispatches exactly one action; the
dispatched action is the branchless selection
`Circuit.if(exists, Member.empty(), member)` and the returned value is
`exists` (the existence-scan result).  There is no error path for an
already-admitted member. -/
theorem C3_dispatch_shape (pre : ParticipantPreconditions) (s : ContractState)
    (m : Member) :
    (addEntry pre s m).1
      = (reduce s.pendingActions (existsStep m) ⟨false, s.accumulatedMembers⟩).state
    ∧ (addEntry pre s m).2.pendingActions
        = s.pendingActions ++ [circuitIf (addEntry pre s m).1 Member.empty m]
    ∧ (addEntry pre s m).2.pendingActions.length = s.pendingActions.length + 1 := by
  refine ⟨rfl, rfl, ?_⟩
  simp [addEntry]

/-- C5: the Merkle-fold step of `publish` returns the recomputed root
`calculateRoot(hash(entry), entry.witness)` when the entry identity differs
from the empty sentinel identity, and returns the accumulator unchanged when
it equals it; the empty sentinel member indeed carries the sentinel
identity. -/
theorem C5_merkle_fold_step (root : Nat) (a : Member) :
    Member.empty.publicKey = PublicKey.empty
    ∧ publishStep root a
        = if a.publicKey = PublicKey.empty then root
          else calculateRoot (hashMember a) a.witness := by
  refine ⟨rfl, ?_⟩
  by_cases h : a.publicKey = PublicKey.empty
  · simp [publishStep, circuitIf, h]
  · simp [publishStep, circuitIf, h]

/-- C6: `isMember` is true iff the root recomputed from the entry witness
over the entry hash equals the committed root, and its result depends only
on the committed root — the pending action log and the marker are never
consulted. -/
theorem C6_isMember_spec (s : ContractState) (m : Member) :
    (isMember s m = true
       ↔ calculateRoot (hashMember m) m.witness = s.committedMembers)
    ∧ ∀ (l : List Member) (acc : Nat),
        isMember { committedMembers := s.committedMembers,
                   accumulatedMembers := acc, pendingActions := l } m
          = isMember s m := by
  constructor
  · simp [isMember]
  · intro l acc
    rfl

/-- C7: with zero pending actions `publish` returns the unchanged checkpoint
(the whole state is unchanged), and calling `publish` twice in a row with no
intervening admissions yields the identical `(root, marker)` pair both
times. -/
theorem C7_publish_stable (s t : ContractState) (h : s.pendingActions = []) :
    publish s = s
    ∧ (publish (publish t)).committedMembers = (publish t).committedMembers
    ∧ (publish (publish t)).accumulatedMembers = (publish t).accumulatedMembers := by
  refine ⟨?_, rfl, rfl⟩
  cases s with
  | mk c acc p =>
    cases h
    rfl

/-- Witness for C7 at concrete inputs: `sEmpty` has no pending actions and is
returned unchanged; the double-publish clause is checked on `sPend`, which
has a nonempty pending log. -/
theorem C7_publish_stable_witness :
    sEmpty.pendingActions = []
    ∧ (publish sEmpty = sEmpty
       ∧ (publish (publish sPend)).committedMembers = (publish sPend).committedMembers
       ∧ (publish (publish sPend)).accumulatedMembers = (publish sPend).accumulatedMembers) :=
  ⟨by decide, C7_publish_stable sEmpty sPend (by decide)⟩

/-- C8: the committed root and the marker are untouched by `addEntry`
(which only appends to the log), and `publish` writes both scalars together
as the two components of one and the same fold result, in a single step. -/
theorem C8_commit_frame (pre : ParticipantPreconditions) (s : ContractState)
    (m : Member) :
    (addEntry pre s m).2.committedMembers = s.committedMembers
    ∧ (addEntry pre s m).2.accumulatedMembers = s.accumulatedMembers
    ∧ publish s
        = { committedMembers :=
              (reduce s.pendingActions publishStep
                ⟨s.committedMembers, s.accumulatedMembers⟩).state,
            accumulatedMembers :=
              (reduce s.pendingActions publishStep
                ⟨s.committedMembers, s.accumulatedMembers⟩).actionsHash,
            pendingActions := [] } :=
  ⟨rfl, rfl, rfl⟩

/-- C9 counterexample: the eligibility configuration is NOT an explicit
admission-time value — it is the module-level mutable variable that each
`Membership` factory call overwrites (`membership.ts` lines 18 and 33).
Concretely, constructing a second contract instance with bounds [6, 10]
changes the module configuration installed by the first construction with
bounds [0, 10], and flips the eligibility boolean that `addEntry` computes
at lines 81-83 for the same member `mA` (balance 5). -/
theorem C9_counterexample :
    MembershipFactory (MembershipFactory ParticipantPreconditions.default params1) params2
      ≠ MembershipFactory ParticipantPreconditions.default params1
    ∧ eligibilityExpr (MembershipFactory ParticipantPreconditions.default params1) mA = true
    ∧ eligibilityExpr
        (MembershipFactory (MembershipFactory ParticipantPreconditions.default params1) params2)
        mA = false := by
  refine ⟨?_, ?_, ?_⟩ <;> decide

/-- C9 (amended): although the configuration is ambient module state that
constructing another instance overwrites, the observable outcome of
`addEntry` (returned value and resulting contract state) does not depend on
it, because the eligibility assertion is never invoked (`membership.ts`
line 83): running another factory call first changes nothing observable. -/
theorem C9_outcome_independent_of_module_config
    (c : ParticipantPreconditions) (params : MembershipParams)
    (s : ContractState) (m : Member) :
    addEntry (MembershipFactory c params) s m = addEntry c s m := rfl

/-- C10 counterexample: on the same contract state `sPend` (whose pending
log holds `mA`), the members `mA` and `mB` differ only in balance, yet
`addEntry` returns different booleans (true for `mA`, false for `mB`) and
dispatches different actions (the empty sentinel for `mA`, the member
itself — balance included — for `mB`): the outcome is not independent of
the balance. -/
theorem C10_counterexample :
    mA.publicKey = mB.publicKey ∧ mA.witness = mB.witness ∧ mA.balance ≠ mB.balance
    ∧ (addEntry preNarrow sPend mA).1 ≠ (addEntry preNarrow sPend mB).1
    ∧ (addEntry preNarrow sPend mA).2.pendingActions
        ≠ (addEntry preNarrow sPend mB).2.pendingActions := by
  refine ⟨?_, ?_, ?_, ?_, ?_⟩ <;> decide

/-- C10 (amended): every `addEntry` invocation completes without error for
any balance, and its entire outcome is independent of the configured
eligibility bounds (the range assertion is never invoked); independence of
the member balance does not hold, since the existence scan and the
dispatched action involve the full member. -/
theorem C10_outcome_independent_of_bounds
    (pre1 pre2 : ParticipantPreconditions) (s : ContractState) (m : Member) :
    addEntry pre1 s m = addEntry pre2 s m := rfl
